import Mathlib

/-!
Verification development for the CYBERFLY multi-kernel compute platform.

Shallow embedding of the components the specified properties talk about:
the dynamic LRU/TTL cache (`include/core/cache/dynamic/DynamicCache.hpp`),
the worker-pool configuration (`include/core/thread/ThreadPool.hpp`),
the recovery manager (`src/core/recovery/RecoveryManager.cpp` and
`include/core/recovery/RecoveryManager.hpp`), and the load balancer
(`src/core/balancer/LoadBalancer.cpp`).

Machine doubles are embedded as rationals (exact arithmetic); machine
integers as `Nat`; byte vectors as `List Nat` with values below 256;
steady-clock instants as `Nat` tick counts supplied explicitly to the
operations that read the clock.
-/

namespace CyberFly

/-! ## Dynamic Cache — `DynamicCache.hpp`

The C++ class keeps an `unordered_map` from keys to (list-iterator, entry)
pairs plus an `std::list` of keys in MRU→LRU order; every map key has
exactly one list node and vice versa.  The embedding fuses the two into a
single association list in MRU→LRU order with unique keys, exactly the
states reachable by the operations. -/

namespace cache

structure Entry (V : Type) where
  data : V
  lastAccess : Nat
  ttlSeconds : Nat
  deriving Repr, DecidableEq

structure DynamicCache (K V : Type) where
  allocatedSize : Nat
  entries : List (K × Entry V)
  deriving Repr, DecidableEq

variable {K V : Type} [DecidableEq K]

def findEntry (l : List (K × Entry V)) (k : K) : Option (Entry V) :=
  match l with
  | [] => none
  | (k', e) :: rest => if k' = k then some e else findEntry rest k

def eraseKey (l : List (K × Entry V)) (k : K) : List (K × Entry V) :=
  l.filter (fun p => decide (p.1 ≠ k))

def DynamicCache.empty (initialSize : Nat) : DynamicCache K V :=
  { allocatedSize := initialSize, entries := [] }

/-- Mirrors `evictLRU`: remove the LRU-end (back) entry if the list is non-empty. -/
def DynamicCache.evictLRU (c : DynamicCache K V) : DynamicCache K V :=
  if c.entries.isEmpty then c else { c with entries := c.entries.dropLast }

/-- Mirrors `put(key, value, ttlSeconds)`: overwrite-and-splice-to-front when the key
is present; otherwise evict one LRU entry when `size >= allocatedSize_` and
push the new entry to the MRU front. -/
def DynamicCache.put (c : DynamicCache K V) (now : Nat) (k : K) (v : V)
    (ttl : Nat) : DynamicCache K V :=
  if (findEntry c.entries k).isSome then
    { c with entries := (k, ⟨v, now, ttl⟩) :: eraseKey c.entries k }
  else
    let c' := if c.entries.length ≥ c.allocatedSize then c.evictLRU else c
    { c' with entries := (k, ⟨v, now, ttl⟩) :: c'.entries }

/-- Mirrors `remove(key)`: erase the entry (the eviction callback does not affect the
cache state). -/
def DynamicCache.removeKey (c : DynamicCache K V) (k : K) : DynamicCache K V :=
  { c with entries := eraseKey c.entries k }

/-- Mirrors `clear()`. -/
def DynamicCache.clearAll (c : DynamicCache K V) : DynamicCache K V :=
  { c with entries := [] }

/-- The eviction loop of `resize`: pop the LRU back `n` times, stopping on an
empty list. -/
def evictN : Nat → List (K × Entry V) → List (K × Entry V)
  | 0, l => l
  | n + 1, l => if l.isEmpty then l else evictN n l.dropLast

/-- Mirrors `resize(newSize)`: evict `size - newSize` LRU entries when shrinking,
then set the capacity. -/
def DynamicCache.resize (c : DynamicCache K V) (newSize : Nat) :
    DynamicCache K V :=
  let l := if newSize < c.entries.length then
    evictN (c.entries.length - newSize) c.entries else c.entries
  { allocatedSize := newSize, entries := l }

/-- Mirrors `batchPut(data, ttlSeconds)`: per-pair put semantics (the body of the C++
loop is the insert-or-overwrite logic of `put` with the shared ttl); the
iteration order of the source `unordered_map` is unspecified, so the
embedding takes the pairs as a list. -/
def DynamicCache.batchPut (c : DynamicCache K V) (now : Nat)
    (data : List (K × V)) (ttl : Nat) : DynamicCache K V :=
  data.foldl (fun acc kv => acc.put now kv.1 kv.2 ttl) c

/-- The mutating operations named by the capacity property. -/
inductive CacheOp (K V : Type) where
  | put (now : Nat) (k : K) (v : V) (ttl : Nat)
  | batchPut (now : Nat) (data : List (K × V)) (ttl : Nat)
  | remove (k : K)
  | clear
  | resize (n : Nat)

def applyOp (c : DynamicCache K V) : CacheOp K V → DynamicCache K V
  | .put now k v ttl => c.put now k v ttl
  | .batchPut now data ttl => c.batchPut now data ttl
  | .remove k => c.removeKey k
  | .clear => c.clearAll
  | .resize n => c.resize n

def applyOps (c : DynamicCache K V) (ops : List (CacheOp K V)) :
    DynamicCache K V :=
  ops.foldl applyOp c

/-- Every `resize` in the sequence requests a positive capacity. -/
def positiveResizes : List (CacheOp K V) → Bool
  | [] => true
  | .resize n :: rest => decide (1 ≤ n) && positiveResizes rest
  | _ :: rest => positiveResizes rest

theorem eraseKey_length_le (l : List (K × Entry V)) (k : K) :
    (eraseKey l k).length ≤ l.length :=
  List.length_filter_le _ l

theorem eraseKey_length_lt : ∀ (l : List (K × Entry V)) (k : K),
    (findEntry l k).isSome → (eraseKey l k).length < l.length
  | [], k, h => by simp [findEntry] at h
  | (k', e) :: rest, k, h => by
    by_cases hk : k' = k
    · subst hk
      simp [eraseKey, List.filter_cons]
      exact Nat.lt_succ_of_le (List.length_filter_le _ _)
    · have h' : (findEntry rest k).isSome := by
        simpa [findEntry, hk] using h
      have ihh := eraseKey_length_lt rest k h'
      have hcons : eraseKey ((k', e) :: rest) k = (k', e) :: eraseKey rest k := by
        simp [eraseKey, List.filter_cons, hk]
      rw [hcons]
      simpa using Nat.succ_lt_succ ihh

omit [DecidableEq K] in
theorem evictN_length (n : Nat) : ∀ l : List (K × Entry V),
    (evictN n l).length = l.length - n := by
  induction n with
  | zero => intro l; simp [evictN]
  | succ m ih =>
    intro l
    cases l with
    | nil => simp [evictN]
    | cons p rest =>
      simp only [evictN, List.isEmpty_cons, Bool.false_eq_true, if_false]
      rw [ih]
      simp [List.length_dropLast, Nat.sub_sub]

theorem put_allocatedSize (c : DynamicCache K V) (now : Nat) (k : K) (v : V)
    (ttl : Nat) : (c.put now k v ttl).allocatedSize = c.allocatedSize := by
  by_cases h1 : (findEntry c.entries k).isSome
  · simp [DynamicCache.put, h1]
  · by_cases h2 : c.entries.length ≥ c.allocatedSize
    · by_cases h3 : c.entries.isEmpty
      · simp [DynamicCache.put, DynamicCache.evictLRU, h1, h2, h3]
      · simp [DynamicCache.put, DynamicCache.evictLRU, h1, h2, h3]
    · simp [DynamicCache.put, DynamicCache.evictLRU, h1, h2]

theorem put_preserves_inv (c : DynamicCache K V) (now : Nat) (k : K) (v : V)
    (ttl : Nat) (hinv : c.entries.length ≤ c.allocatedSize)
    (hcap : 1 ≤ c.allocatedSize) :
    (c.put now k v ttl).entries.length ≤ c.allocatedSize := by
  by_cases h1 : (findEntry c.entries k).isSome
  · have := eraseKey_length_lt c.entries k h1
    simp [DynamicCache.put, h1]
    omega
  · by_cases h2 : c.entries.length ≥ c.allocatedSize
    · have hlen : c.entries.length = c.allocatedSize := le_antisymm hinv h2
      have h3 : ¬ c.entries.isEmpty := by
        rw [List.isEmpty_iff_length_eq_zero]
        omega
      have hdl : c.entries.dropLast.length = c.entries.length - 1 :=
        List.length_dropLast c.entries
      simp [DynamicCache.put, DynamicCache.evictLRU, h1, h2, h3, hdl]
      omega
    · simp [DynamicCache.put, DynamicCache.evictLRU, h1, h2]
      omega

theorem batchPut_preserves_inv (now : Nat) (ttl : Nat)
    (data : List (K × V)) : ∀ c : DynamicCache K V,
    c.entries.length ≤ c.allocatedSize → 1 ≤ c.allocatedSize →
    (c.batchPut now data ttl).entries.length ≤
      (c.batchPut now data ttl).allocatedSize ∧
    (c.batchPut now data ttl).allocatedSize = c.allocatedSize := by
  induction data with
  | nil => intro c h1 h2; exact ⟨h1, rfl⟩
  | cons kv rest ih =>
    intro c h1 h2
    simp only [DynamicCache.batchPut, List.foldl_cons]
    have hstep := put_preserves_inv c now kv.1 kv.2 ttl h1 h2
    have halloc := put_allocatedSize c now kv.1 kv.2 ttl
    have := ih (c.put now kv.1 kv.2 ttl) (by omega) (by omega)
    simp only [DynamicCache.batchPut] at this
    omega

theorem applyOp_preserves_inv (c : DynamicCache K V) (op : CacheOp K V)
    (hinv : c.entries.length ≤ c.allocatedSize)
    (hcap : 1 ≤ c.allocatedSize)
    (hop : positiveResizes [op] = true) :
    (applyOp c op).entries.length ≤ (applyOp c op).allocatedSize ∧
    1 ≤ (applyOp c op).allocatedSize := by
  cases op with
  | put now k v ttl =>
    have := put_preserves_inv c now k v ttl hinv hcap
    have := put_allocatedSize c now k v ttl
    simp only [applyOp]
    omega
  | batchPut now data ttl =>
    have := batchPut_preserves_inv now ttl data c hinv hcap
    simp only [applyOp]
    omega
  | remove k =>
    have := eraseKey_length_le c.entries k
    simp only [applyOp, DynamicCache.removeKey]
    exact ⟨by omega, hcap⟩
  | clear => simpa [applyOp, DynamicCache.clearAll] using hcap
  | resize n =>
    have hn : 1 ≤ n := by
      simpa [positiveResizes] using hop
    simp only [applyOp, DynamicCache.resize]
    refine ⟨?_, hn⟩
    split
    · next hlt =>
      rw [evictN_length]
      omega
    · next hge => omega

theorem applyOps_preserves_inv (ops : List (CacheOp K V)) :
    ∀ c : DynamicCache K V,
    c.entries.length ≤ c.allocatedSize → 1 ≤ c.allocatedSize →
    positiveResizes ops = true →
    (applyOps c ops).entries.length ≤ (applyOps c ops).allocatedSize ∧
    1 ≤ (applyOps c ops).allocatedSize := by
  induction ops with
  | nil => intro c h1 h2 _; exact ⟨h1, h2⟩
  | cons op rest ih =>
    intro c h1 h2 hpos
    have hop : positiveResizes [op] = true := by
      cases op <;> simp_all [positiveResizes]
    have hrest : positiveResizes rest = true := by
      cases op <;> simp_all [positiveResizes]
    have hstep := applyOp_preserves_inv c op h1 h2 hop
    simpa [applyOps] using ih (applyOp c op) hstep.1 hstep.2 hrest

theorem put_full_evicts_tail (c : DynamicCache K V) (now : Nat) (k : K)
    (v : V) (ttl : Nat) (hcap : 1 ≤ c.allocatedSize)
    (hfull : c.entries.length = c.allocatedSize)
    (habs : (findEntry c.entries k).isNone) :
    (c.put now k v ttl).entries = (k, ⟨v, now, ttl⟩) :: c.entries.dropLast := by
  have h1 : ¬ (findEntry c.entries k).isSome = true := by
    rw [Option.isNone_iff_eq_none] at habs
    simp [habs]
  have h2 : c.entries.length ≥ c.allocatedSize := le_of_eq hfull.symm
  have h3 : ¬ c.entries.isEmpty := by
    rw [List.isEmpty_iff_length_eq_zero]
    omega
  simp [DynamicCache.put, DynamicCache.evictLRU, h1, h2, h3]

/-- The cache state reached from a fresh cache of the given initial capacity
after a sequence of operations. -/
def cacheRun (cap : Nat) (ops : List (CacheOp K V)) : DynamicCache K V :=
  applyOps (DynamicCache.empty cap) ops

end cache

/-- C3 (counterexample): with initial capacity 0, a single `put` leaves one
entry in the cache, so `size ≤ capacity` fails; the claim's "for every
initial capacity (including 0)" is false. -/
theorem dynamicCache_capacity_zero_counterexample :
    ¬ ((cache.cacheRun (K := Nat) (V := Nat) 0
          [.put 0 0 0 0]).entries.length ≤
        (cache.cacheRun (K := Nat) (V := Nat) 0
          [.put 0 0 0 0]).allocatedSize) := by
  decide

/-- C3 (amended): for every initial capacity ≥ 1 and every sequence of
`put`/`batchPut`/`remove`/`clear`/`resize` operations whose resizes request a
positive capacity, `size ≤ capacity` holds at every quiescent point; and at
any such reachable state, an insert of an absent key when `size = capacity`
evicts exactly one entry — the LRU tail — before inserting at the MRU front,
leaving the size unchanged. -/
theorem dynamicCache_capacity_invariant {K V : Type} [DecidableEq K]
    (cap : Nat) (ops : List (cache.CacheOp K V)) (hcap : 1 ≤ cap)
    (hres : cache.positiveResizes ops = true) :
    (cache.cacheRun cap ops).entries.length ≤
      (cache.cacheRun cap ops).allocatedSize ∧
    (∀ (now : Nat) (k : K) (v : V) (ttl : Nat),
      (cache.findEntry (cache.cacheRun cap ops).entries k).isNone →
      (cache.cacheRun cap ops).entries.length =
        (cache.cacheRun cap ops).allocatedSize →
      ((cache.cacheRun cap ops).put now k v ttl).entries =
        (k, ⟨v, now, ttl⟩) :: (cache.cacheRun cap ops).entries.dropLast ∧
      ((cache.cacheRun cap ops).put now k v ttl).entries.length =
        (cache.cacheRun cap ops).entries.length) := by
  have hinv := cache.applyOps_preserves_inv ops (cache.DynamicCache.empty cap)
    (by simp [cache.DynamicCache.empty]) (by simpa [cache.DynamicCache.empty])
    hres
  refine ⟨hinv.1, ?_⟩
  intro now k v ttl habs hfull
  have hshape := cache.put_full_evicts_tail (cache.cacheRun cap ops) now k v ttl
    (by simpa [cache.cacheRun] using hinv.2) (by simpa using hfull) habs
  refine ⟨hshape, ?_⟩
  rw [hshape]
  have hlen : (cache.cacheRun cap ops).entries.length ≥ 1 := by
    have := hinv.2
    simp only [cache.cacheRun] at hfull ⊢
    omega
  simp only [List.length_cons, List.length_dropLast]
  omega

/-- C3 (witness): the amended invariant instantiated at capacity 1 with a
concrete operation sequence exercising put, batchPut, remove, clear and
resize. -/
theorem dynamicCache_capacity_invariant_witness :
    (cache.cacheRun (K := Nat) (V := Nat) 1
        [.put 0 1 10 0, .put 1 2 20 0, .batchPut 2 [(3, 30), (4, 40)] 5,
         .resize 2, .remove 3, .clear, .put 3 5 50 0]).entries.length ≤
      (cache.cacheRun (K := Nat) (V := Nat) 1
        [.put 0 1 10 0, .put 1 2 20 0, .batchPut 2 [(3, 30), (4, 40)] 5,
         .resize 2, .remove 3, .clear, .put 3 5 50 0]).allocatedSize ∧
    (∀ (now : Nat) (k : Nat) (v : Nat) (ttl : Nat),
      (cache.findEntry (cache.cacheRun (K := Nat) (V := Nat) 1
        [.put 0 1 10 0, .put 1 2 20 0, .batchPut 2 [(3, 30), (4, 40)] 5,
         .resize 2, .remove 3, .clear, .put 3 5 50 0]).entries k).isNone →
      (cache.cacheRun (K := Nat) (V := Nat) 1
        [.put 0 1 10 0, .put 1 2 20 0, .batchPut 2 [(3, 30), (4, 40)] 5,
         .resize 2, .remove 3, .clear, .put 3 5 50 0]).entries.length =
        (cache.cacheRun (K := Nat) (V := Nat) 1
        [.put 0 1 10 0, .put 1 2 20 0, .batchPut 2 [(3, 30), (4, 40)] 5,
         .resize 2, .remove 3, .clear, .put 3 5 50 0]).allocatedSize →
      ((cache.cacheRun (K := Nat) (V := Nat) 1
        [.put 0 1 10 0, .put 1 2 20 0, .batchPut 2 [(3, 30), (4, 40)] 5,
         .resize 2, .remove 3, .clear, .put 3 5 50 0]).put now k v ttl).entries =
        (k, ⟨v, now, ttl⟩) :: (cache.cacheRun (K := Nat) (V := Nat) 1
        [.put 0 1 10 0, .put 1 2 20 0, .batchPut 2 [(3, 30), (4, 40)] 5,
         .resize 2, .remove 3, .clear, .put 3 5 50 0]).entries.dropLast ∧
      ((cache.cacheRun (K := Nat) (V := Nat) 1
        [.put 0 1 10 0, .put 1 2 20 0, .batchPut 2 [(3, 30), (4, 40)] 5,
         .resize 2, .remove 3, .clear, .put 3 5 50 0]).put now k v ttl).entries.length =
        (cache.cacheRun (K := Nat) (V := Nat) 1
        [.put 0 1 10 0, .put 1 2 20 0, .batchPut 2 [(3, 30), (4, 40)] 5,
         .resize 2, .remove 3, .clear, .put 3 5 50 0]).entries.length) :=
  dynamicCache_capacity_invariant 1
    [.put 0 1 10 0, .put 1 2 20 0, .batchPut 2 [(3, 30), (4, 40)] 5,
     .resize 2, .remove 3, .clear, .put 3 5 50 0] (by decide) (by decide)

/-! ## Worker Pool configuration — `ThreadPool.hpp`

`ThreadPoolConfig::validate` as written in the header.  The additional
platform-conditional checks (Apple-ARM core counts, Linux-x64
hyperthreading) are compiled only under the corresponding platform macros
and do not involve the queue capacity either; the embedding covers the
unconditional checks. -/

namespace thread

structure ThreadPoolConfig where
  minThreads : Nat
  maxThreads : Nat
  queueSize : Nat
  stackSize : Nat
  deriving Repr, DecidableEq

def ThreadPoolConfig.validate (c : ThreadPoolConfig) : Bool :=
  if c.minThreads > c.maxThreads then false
  else if c.minThreads = 0 then false
  else if c.stackSize = 0 then false
  else true

end thread

/-- C9 (counterexample): a configuration with `queueSize = 0` but
`minThreads = maxThreads = 1` and a non-zero stack size passes
`ThreadPoolConfig::validate`, so "for every configuration with
queue_capacity equal to 0, validate() returns false" is false. -/
theorem threadPoolConfig_queueZero_counterexample :
    (thread.ThreadPoolConfig.mk 1 1 0 1024).validate = true := by decide

/-- C9 (amended): `ThreadPoolConfig::validate` accepts exactly the
configurations with `0 < minThreads ≤ maxThreads` and a non-zero stack
size; the queue capacity is not examined at all. -/
theorem threadPoolConfig_validate_spec (c : thread.ThreadPoolConfig) :
    (c.validate = true ↔
      0 < c.minThreads ∧ c.minThreads ≤ c.maxThreads ∧ 0 < c.stackSize) ∧
    (∀ q : Nat,
      (thread.ThreadPoolConfig.mk c.minThreads c.maxThreads q
        c.stackSize).validate = c.validate) := by
  constructor
  · simp only [thread.ThreadPoolConfig.validate]
    split
    · simp; omega
    · split
      · simp; omega
      · split
        · simp; omega
        · simp; omega
  · intro q
    simp only [thread.ThreadPoolConfig.validate]

/-! ## SHA-256

`RecoveryManager::calculateChecksum` hashes the state bytes with OpenSSL's
SHA-256 and formats the 32-digest bytes as 64 lowercase hex characters.
The embedding implements SHA-256 (FIPS 180-4) over `Nat` with explicit
`% 2^32` reductions; all recursions are structural so the kernel can
evaluate concrete digests. -/

namespace sha256

def w32 (x : Nat) : Nat := x % 4294967296

def rotr (n x : Nat) : Nat := w32 ((x >>> n) ||| (x <<< (32 - n)))

def bsig0 (x : Nat) : Nat := rotr 2 x ^^^ rotr 13 x ^^^ rotr 22 x
def bsig1 (x : Nat) : Nat := rotr 6 x ^^^ rotr 11 x ^^^ rotr 25 x
def ssig0 (x : Nat) : Nat := rotr 7 x ^^^ rotr 18 x ^^^ (x >>> 3)
def ssig1 (x : Nat) : Nat := rotr 17 x ^^^ rotr 19 x ^^^ (x >>> 10)
def ch (x y z : Nat) : Nat := (x &&& y) ^^^ ((x ^^^ 4294967295) &&& z)
def maj (x y z : Nat) : Nat := (x &&& y) ^^^ (x &&& z) ^^^ (y &&& z)

def roundConsts : List Nat :=
  [1116352408, 1899447441, 3049323471, 3921009573, 961987163,
   1508970993, 2453635748, 2870763221, 3624381080, 310598401,
   607225278, 1426881987, 1925078388, 2162078206, 2614888103,
   3248222580, 3835390401, 4022224774, 264347078, 604807628,
   770255983, 1249150122, 1555081692, 1996064986, 2554220882,
   2821834349, 2952996808, 3210313671, 3336571891, 3584528711,
   113926993, 338241895, 666307205, 773529912, 1294757372,
   1396182291, 1695183700, 1986661051, 2177026350, 2456956037,
   2730485921, 2820302411, 3259730800, 3345764771, 3516065817,
   3600352804, 4094571909, 275423344, 430227734, 506948616,
   659060556, 883997877, 958139571, 1322822218, 1537002063,
   1747873779, 1955562222, 2024104815, 2227730452, 2361852424,
   2428436474, 2756734187, 3204031479, 3329325298]

def initHash : List Nat :=
  [1779033703, 3144134277, 1013904242, 2773480762, 1359893119,
   2600822924, 528734635, 1541459225]

def beBytes8 (n : Nat) : List Nat :=
  [(n >>> 56) % 256, (n >>> 48) % 256, (n >>> 40) % 256, (n >>> 32) % 256,
   (n >>> 24) % 256, (n >>> 16) % 256, (n >>> 8) % 256, n % 256]

def padMessage (msg : List Nat) : List Nat :=
  let L := msg.length
  let k := (64 + 56 - ((L + 1) % 64)) % 64
  msg ++ 0x80 :: List.replicate k 0 ++ beBytes8 (8 * L)

def toWords : List Nat → List Nat
  | a :: b :: c :: d :: rest =>
    (a * 16777216 + b * 65536 + c * 256 + d) :: toWords rest
  | _ => []

def toBlocksFuel : Nat → List Nat → List (List Nat)
  | 0, _ => []
  | _, [] => []
  | fuel + 1, w :: ws => ((w :: ws).take 16) :: toBlocksFuel fuel ((w :: ws).drop 16)

def toBlocks (l : List Nat) : List (List Nat) := toBlocksFuel l.length l

def scheduleStep (w : List Nat) : List Nat :=
  let n := w.length
  w ++ [w32 (ssig1 (w.getD (n - 2) 0) + w.getD (n - 7) 0 +
             ssig0 (w.getD (n - 15) 0) + w.getD (n - 16) 0)]

def schedule (w : List Nat) : List Nat :=
  (List.range 48).foldl (fun acc _ => scheduleStep acc) w

def roundStep : List Nat → Nat × Nat → List Nat
  | [a, b, c, d, e, f, g, h], (wi, ki) =>
    let t1 := w32 (h + bsig1 e + ch e f g + ki + wi)
    let t2 := w32 (bsig0 a + maj a b c)
    [w32 (t1 + t2), a, b, c, w32 (d + t1), e, f, g]
  | s, _ => s

def compressBlock (h : List Nat) (block : List Nat) : List Nat :=
  let s := ((schedule block).zip roundConsts).foldl roundStep h
  (h.zip s).map (fun p => w32 (p.1 + p.2))

def sha256Bytes (msg : List Nat) : List Nat :=
  ((toBlocks (toWords (padMessage msg))).foldl compressBlock initHash).flatMap
    (fun w => [(w >>> 24) % 256, (w >>> 16) % 256, (w >>> 8) % 256, w % 256])

def hexChar (n : Nat) : Char :=
  if n < 10 then Char.ofNat (48 + n) else Char.ofNat (87 + n)

/-- The hex formatting of `RecoveryManager::calculateChecksum`. -/
def sha256Hex (msg : List Nat) : String :=
  String.mk ((sha256Bytes msg).foldr
    (fun b acc => hexChar (b / 16) :: hexChar (b % 16) :: acc) [])

/-- FIPS 180-4 test vector for the one-block message "abc". -/
theorem sha256Hex_abc :
    sha256Hex [0x61, 0x62, 0x63] =
      "ba7816bf8f01cfea414140de5dae2223b00361a396177a9cb410ff61f20015ad" := by
  decide

end sha256

/-! ## Recovery Manager — `RecoveryManager.cpp` / `RecoveryManager.hpp` -/

namespace recovery

structure RecoveryPointConfig where
  maxSize : Nat
  enableCompression : Bool
  storagePath : String
  retentionPeriod : Int
  deriving Repr, DecidableEq

structure RecoveryConfig where
  maxRecoveryPoints : Nat := 10
  checkpointInterval : Int := 30
  enableAutoRecovery : Bool := true
  enableStateValidation : Bool := true
  pointConfig : RecoveryPointConfig
  logPath : String := "logs/recovery.log"
  maxLogSize : Nat := 1048576
  maxLogFiles : Nat := 2
  deriving Repr, DecidableEq

/-- Mirrors `RecoveryConfig::validate`. -/
def RecoveryConfig.validate (c : RecoveryConfig) : Bool :=
  if c.maxRecoveryPoints = 0 then false
  else if c.checkpointInterval ≤ 0 then false
  else if c.pointConfig.maxSize = 0 then false
  else if c.pointConfig.storagePath = "" then false
  else true

structure RecoveryPoint where
  id : String
  timestamp : Nat
  state : List Nat
  isConsistent : Bool
  checksum : String
  size : Nat
  deriving Repr, DecidableEq

/-- The while loop of `RecoveryManager::compressState`: number of leading
bytes of the list equal to `v`, capped (the loop guard `count < 255` lets
`count` reach 255, i.e. consume at most 254 further bytes). -/
def countRun (v : Nat) : Nat → List Nat → Nat
  | 0, _ => 0
  | _, [] => 0
  | cap + 1, b :: rest => if b = v then countRun v cap rest + 1 else 0

/-- The `i ≥ 1` portion of the `compressState` loop; `prev` is `data[i-1]`.
On a repeated byte the loop emits the triple `0x00, count, byte` where
`count` is one more than the number of bytes it consumed, and resumes at
the first differing byte.  Fuel is the list length (every step consumes at
least one byte). -/
def compressAux : Nat → Nat → List Nat → List Nat
  | 0, _, _ => []
  | _, _, [] => []
  | fuel + 1, prev, b :: rest =>
    if b = prev then
      let k := countRun prev 254 (b :: rest)
      0 :: (k + 1) :: prev :: compressAux fuel prev ((b :: rest).drop k)
    else
      b :: compressAux fuel b rest

/-- The `compressed` buffer built by `RecoveryManager::compressState`
(index 0 is always emitted literally since the run branch requires
`i > 0`). -/
def compressStateRaw : List Nat → List Nat
  | [] => []
  | b :: rest => b :: compressAux rest.length b rest

/-- Mirrors `RecoveryManager::compressState`: the RLE output replaces the data only
when it is strictly smaller. -/
def compressState (data : List Nat) : List Nat :=
  let c := compressStateRaw data
  if c.length < data.length then c else data

/-- Mirrors `RecoveryManager::decompressState`: a `0x00` byte followed by at least
two more bytes is read as an RLE triple `(0, count, value)`; everything
else is copied literally. -/
def decompressState : List Nat → List Nat
  | [] => []
  | 0 :: cnt :: val :: rest => List.replicate cnt val ++ decompressState rest
  | b :: rest => b :: decompressState rest

/-- Mirrors `detail::StateValidator::validateState`: non-empty state whose checksum
can be computed (`calculateChecksum` always yields a hex string, so the
second conjunct is the non-emptiness of that string). -/
def validatorValidateState (state : List Nat) : Bool :=
  if state = [] then false
  else decide (sha256.sha256Hex state ≠ "")

/-- Mirrors `RecoveryManager::createRecoveryPoint`, pure part: capture the state
(the fixed dummy blob `01 02 03 04 05` when no callback is installed),
compute the checksum of the pre-compression bytes when validation is
enabled, optionally compress, and record `size` after compression.  The
random id and the steady-clock timestamp are parameters; the disk write is
assumed to succeed. -/
def createRecoveryPointModel (cfg : RecoveryConfig)
    (captureCb : Option (List Nat)) (id : String) (timestamp : Nat) :
    RecoveryPoint :=
  let state0 := captureCb.getD [1, 2, 3, 4, 5]
  let checksum := if cfg.enableStateValidation then sha256.sha256Hex state0
    else ""
  let isConsistent := if cfg.enableStateValidation then
    validatorValidateState state0 else true
  let state1 := if cfg.pointConfig.enableCompression then compressState state0
    else state0
  { id := id, timestamp := timestamp, state := state1,
    isConsistent := isConsistent, checksum := checksum,
    size := state1.length }

/-- Mirrors `RecoveryManager::restoreFromPoint` after a successful disk load of
`point`: decompress when compression is configured, run the state
validator when validation is configured (the stored `point.checksum` is
never consulted), then hand the bytes to the restore callback.  Returns
the success flag and the bytes delivered to the callback. -/
def restoreFromPointModel (cfg : RecoveryConfig) (point : RecoveryPoint)
    (restoreCb : Option (List Nat → Bool)) : Bool × Option (List Nat) :=
  let st1 := if cfg.pointConfig.enableCompression then
    decompressState point.state else point.state
  if cfg.enableStateValidation && !(validatorValidateState st1) then
    (false, none)
  else
    match restoreCb with
    | some cb => if cb st1 then (true, some st1) else (false, some st1)
    | none => (true, none)

/-- Mirrors `RecoveryManager::initialize`: substitute the default storage path for
an empty one, create the directory (`mkdirOk` abstracts that I/O), then
validate the patched configuration and ensure the directory exists
(`ensureOk`).  Returns the success flag and the patched configuration. -/
def initializeModel (cfg : RecoveryConfig) (mkdirOk ensureOk : Bool) :
    Bool × RecoveryConfig :=
  let path := if cfg.pointConfig.storagePath = "" then
    "./recovery_points/default" else cfg.pointConfig.storagePath
  let cfg' := { cfg with pointConfig := { cfg.pointConfig with storagePath := path } }
  if !mkdirOk then (false, cfg')
  else if !cfg'.validate then (false, cfg')
  else if !ensureOk then (false, cfg')
  else (true, cfg')

/-- A recovery configuration with compression and validation enabled. -/
def cfgCompress : RecoveryConfig :=
  { pointConfig :=
      { maxSize := 1048576
        enableCompression := true
        storagePath := "./recovery_points"
        retentionPeriod := 3600 } }

/-- A recovery configuration with validation enabled and compression
disabled. -/
def cfgPlain : RecoveryConfig :=
  { pointConfig :=
      { maxSize := 1048576
        enableCompression := false
        storagePath := "./recovery_points"
        retentionPeriod := 3600 } }

/-- A point whose stored checksum is not the SHA-256 of its state bytes. -/
def mismatchedPoint : RecoveryPoint :=
  { id := "deadbeefdeadbeef"
    timestamp := 0
    state := [1, 2, 3]
    isConsistent := true
    checksum :=
      "0000000000000000000000000000000000000000000000000000000000000000"
    size := 3 }

end recovery

/-- C1: the checkpoint round-trip is NOT the identity when compression is
enabled.  With a capture callback returning `01 01 01 01 01`, the stored
checksum is the SHA-256 of those five bytes (the claim's checksum half),
the RLE compressor emits `01 00 05 01` (the leading run byte literally
plus a triple whose count field also covers it), restore succeeds, and the
restore callback receives SIX bytes `01 01 01 01 01 01` — not the captured
five.  This exhibits the coding bug behind P5/§6 "compression is
lossless". -/
theorem recovery_roundtrip_compression_bug :
    (recovery.createRecoveryPointModel recovery.cfgCompress
        (some [1, 1, 1, 1, 1]) "0011223344556677" 0).checksum =
      sha256.sha256Hex [1, 1, 1, 1, 1] ∧
    (recovery.createRecoveryPointModel recovery.cfgCompress
        (some [1, 1, 1, 1, 1]) "0011223344556677" 0).state = [1, 0, 5, 1] ∧
    (recovery.restoreFromPointModel recovery.cfgCompress
        (recovery.createRecoveryPointModel recovery.cfgCompress
          (some [1, 1, 1, 1, 1]) "0011223344556677" 0)
        (some (fun _ => true))) = (true, some [1, 1, 1, 1, 1, 1]) ∧
    [1, 1, 1, 1, 1, 1] ≠ [1, 1, 1, 1, 1] := by
  refine ⟨rfl, by decide, by decide, by decide⟩

/-- C2: `restoreFromPoint` does not compare the recomputed checksum with
the point's stored checksum.  For a point whose stored checksum (64
zeros) differs from the SHA-256 of its state `01 02 03`, the restore
nevertheless succeeds — the state validator only checks non-emptiness —
contradicting the claim that such a restore must fail. -/
theorem recovery_restore_ignores_checksum_bug :
    recovery.mismatchedPoint.checksum ≠
      sha256.sha256Hex recovery.mismatchedPoint.state ∧
    (recovery.restoreFromPointModel recovery.cfgPlain
        recovery.mismatchedPoint (some (fun _ => true))).1 = true := by
  constructor
  · decide
  · decide

/-- C10: `RecoveryManager::initialize` substitutes the default path
"./recovery_points/default" for an empty `storagePath` before validating,
so with the remaining fields valid it returns true and leaves the patched
path in the configuration, even though `RecoveryConfig::validate` rejects
the original configuration. -/
theorem recovery_initialize_empty_path_defaults
    (cfg : recovery.RecoveryConfig)
    (hempty : cfg.pointConfig.storagePath = "")
    (hmax : cfg.maxRecoveryPoints ≠ 0)
    (hint : 0 < cfg.checkpointInterval)
    (hsize : cfg.pointConfig.maxSize ≠ 0) :
    (recovery.initializeModel cfg true true).1 = true ∧
    (recovery.initializeModel cfg true true).2.pointConfig.storagePath =
      "./recovery_points/default" ∧
    cfg.validate = false := by
  have hval : cfg.validate = false := by
    unfold recovery.RecoveryConfig.validate
    split_ifs <;> simp_all
  refine ⟨?_, ?_, hval⟩
  · simp only [recovery.initializeModel, hempty, recovery.RecoveryConfig.validate]
    split_ifs <;> simp_all
    omega
  · simp only [recovery.initializeModel, hempty]
    split_ifs <;> rfl

/-- C10 (witness): a concrete configuration with an empty storage path and
otherwise-valid fields. -/
theorem recovery_initialize_empty_path_defaults_witness :
    (recovery.initializeModel
        { pointConfig :=
            { maxSize := 1024
              enableCompression := false
              storagePath := ""
              retentionPeriod := 60 } } true true).1 = true ∧
    (recovery.initializeModel
        { pointConfig :=
            { maxSize := 1024
              enableCompression := false
              storagePath := ""
              retentionPeriod := 60 } }
        true true).2.pointConfig.storagePath = "./recovery_points/default" ∧
    recovery.RecoveryConfig.validate
      { pointConfig :=
          { maxSize := 1024
            enableCompression := false
            storagePath := ""
            retentionPeriod := 60 } } = false :=
  recovery_initialize_empty_path_defaults
    { pointConfig :=
        { maxSize := 1024
          enableCompression := false
          storagePath := ""
          retentionPeriod := 60 } }
    (by decide) (by decide) (by decide) (by decide)

/-! ## Load Balancer — `LoadBalancer.cpp` / `LoadBalancer.hpp`

The balancer's `double` arithmetic is embedded over `ℚ`; `std::abs`,
`std::min` and `std::max` are spelled out as conditionals so every score
computation kernel-evaluates.  The kernels vector enters `balance` only
through its length (selection indexes `metrics`, which must have the same
length), so the embedding passes the kernel count. -/

namespace balancer

inductive TaskType where
  | CPU_INTENSIVE
  | IO_INTENSIVE
  | MEMORY_INTENSIVE
  | NETWORK_INTENSIVE
  | MIXED
  deriving Repr, DecidableEq

structure KernelMetrics where
  cpuUsage : ℚ := 0
  memoryUsage : ℚ := 0
  networkBandwidth : ℚ := 0
  diskIO : ℚ := 0
  energyConsumption : ℚ := 0
  cpuTaskEfficiency : ℚ := 0
  ioTaskEfficiency : ℚ := 0
  memoryTaskEfficiency : ℚ := 0
  networkTaskEfficiency : ℚ := 0
  deriving Repr, DecidableEq

structure TaskDescriptor where
  data : List Nat := []
  priority : Int := 5
  enqueueTime : Nat := 0
  type : TaskType := .MIXED
  estimatedMemoryUsage : Nat := 0
  estimatedCpuTime : Nat := 0
  deriving Repr, DecidableEq

inductive BalancingStrategy where
  | ResourceAware
  | WorkloadSpecific
  | HybridAdaptive
  | PriorityAdaptive
  | LeastLoaded
  | RoundRobin
  deriving Repr, DecidableEq

/-- The mutable fields of class `LoadBalancer`, with the in-class default
initializers (default strategy `hybrid_adaptive`, weights
`0.3/0.25/0.25/0.2`, thresholds `0.8/0.7`). -/
structure LoadBalancer where
  strategy : String := "hybrid_adaptive"
  strategyEnum : BalancingStrategy := .HybridAdaptive
  rrIdx : Nat := 0
  cpuWeight : ℚ := 3/10
  memoryWeight : ℚ := 1/4
  networkWeight : ℚ := 1/4
  energyWeight : ℚ := 1/5
  resourceThreshold : ℚ := 4/5
  workloadThreshold : ℚ := 7/10
  resourceAwareDecisions : Nat := 0
  workloadSpecificDecisions : Nat := 0
  totalDecisions : Nat := 0
  deriving Repr, DecidableEq

/-- Mirrors `std::abs` on the rational embedding of `double`. -/
def qabs (x : ℚ) : ℚ := if x < 0 then -x else x

/-- Mirrors `std::min(a, b)`. -/
def qmin (a b : ℚ) : ℚ := if b < a then b else a

/-- Mirrors `std::max(a, b)`. -/
def qmax (a b : ℚ) : ℚ := if a < b then b else a

/-- Mirrors `LoadBalancer::calculateResourceScore`. -/
def calculateResourceScore (lb : LoadBalancer) (m : KernelMetrics)
    (t : TaskDescriptor) : ℚ :=
  let cpuScore := (1 - m.cpuUsage) * lb.cpuWeight
  let memoryScore0 := (1 - m.memoryUsage) * lb.memoryWeight
  let networkScore := m.networkBandwidth / 1000 * lb.networkWeight
  let energyScore := (1 - m.energyConsumption / 100) * lb.energyWeight
  let memoryScore := if 0 < t.estimatedMemoryUsage then
    memoryScore0 * (1 - (t.estimatedMemoryUsage : ℚ) / 1073741824)
  else memoryScore0
  cpuScore + memoryScore + networkScore + energyScore

/-- Mirrors `LoadBalancer::calculateWorkloadScore`. -/
def calculateWorkloadScore (m : KernelMetrics) (t : TaskDescriptor) : ℚ :=
  let e := match t.type with
    | .CPU_INTENSIVE => m.cpuTaskEfficiency * (1 - m.cpuUsage * (3/10))
    | .IO_INTENSIVE =>
      m.ioTaskEfficiency * (1 + KernelMetrics.diskIO m / 1000 * (1/10))
    | .MEMORY_INTENSIVE =>
      m.memoryTaskEfficiency * (1 - m.memoryUsage * (3/10))
    | .NETWORK_INTENSIVE =>
      m.networkTaskEfficiency * (1 + m.networkBandwidth / 1000 * (1/10))
    | .MIXED => (m.cpuTaskEfficiency + m.ioTaskEfficiency +
        m.memoryTaskEfficiency + m.networkTaskEfficiency) / 4
  1 - qmax 0 (qmin 1 e)

/-- The argmin loop shared by the selection strategies: `bestScore` starts
at `DBL_MAX` (any finite score beats it), strict `<` keeps the first
minimum. -/
def minIdxFrom (best : ℚ) (bi : Nat) (i : Nat) : List ℚ → Nat
  | [] => bi
  | s :: rest =>
    if s < best then minIdxFrom s i (i + 1) rest
    else minIdxFrom best bi (i + 1) rest

def minIdx : List ℚ → Nat
  | [] => 0
  | s :: rest => minIdxFrom s 0 1 rest

/-- Mirrors `LoadBalancer::selectByResourceAware`: when every kernel's resource
score is within 0.001 of the first kernel's, pick `rrIdx % len` and
advance the cursor; otherwise take the argmin.  (`balance` never calls it
with an empty metrics vector; the `[]` case is a benign totalization.) -/
def selectByResourceAware (lb : LoadBalancer) (metrics : List KernelMetrics)
    (t : TaskDescriptor) : Nat × LoadBalancer :=
  match metrics with
  | [] => (0, lb)
  | m0 :: rest =>
    let firstScore := calculateResourceScore lb m0 t
    let allEqual := rest.all (fun m =>
      decide (qabs (calculateResourceScore lb m t - firstScore) ≤ 1/1000))
    if allEqual then
      (lb.rrIdx % (m0 :: rest).length,
       { lb with rrIdx := (lb.rrIdx + 1) % (m0 :: rest).length })
    else
      (minIdx ((m0 :: rest).map (fun m => calculateResourceScore lb m t)), lb)

/-- Mirrors `LoadBalancer::selectByWorkloadSpecific`: plain argmin, no cursor. -/
def selectByWorkloadSpecific (metrics : List KernelMetrics)
    (t : TaskDescriptor) : Nat :=
  minIdx (metrics.map (fun m => calculateWorkloadScore m t))

/-- The per-kernel combined score of `selectByHybridAdaptive`: weights
`(0.6, 0.4)`, shifted to `(0.3, 0.7)` for non-MIXED task types, and to
`(0.8, 0.2)` when the kernel's resource score exceeds the resource
threshold. -/
def hybridCombined (lb : LoadBalancer) (t : TaskDescriptor)
    (m : KernelMetrics) : ℚ :=
  let resourceScore := calculateResourceScore lb m t
  let workloadScore := calculateWorkloadScore m t
  let w0 : ℚ × ℚ := if t.type ≠ .MIXED then (3/10, 7/10) else (6/10, 4/10)
  let w1 : ℚ × ℚ := if resourceScore > lb.resourceThreshold then (8/10, 2/10)
    else w0
  w1.1 * resourceScore + w1.2 * workloadScore

/-- Mirrors `LoadBalancer::selectByHybridAdaptive`: round-robin when both score
families are within 0.001 of the first kernel's, else argmin of the
combined score. -/
def selectByHybridAdaptive (lb : LoadBalancer) (metrics : List KernelMetrics)
    (t : TaskDescriptor) : Nat × LoadBalancer :=
  match metrics with
  | [] => (0, lb)
  | m0 :: rest =>
    let firstResourceScore := calculateResourceScore lb m0 t
    let firstWorkloadScore := calculateWorkloadScore m0 t
    let allEqual := rest.all (fun m =>
      decide (qabs (calculateResourceScore lb m t - firstResourceScore) ≤ 1/1000) &&
      decide (qabs (calculateWorkloadScore m t - firstWorkloadScore) ≤ 1/1000))
    if allEqual then
      (lb.rrIdx % (m0 :: rest).length,
       { lb with rrIdx := (lb.rrIdx + 1) % (m0 :: rest).length })
    else
      (minIdx ((m0 :: rest).map (hybridCombined lb t)), lb)

/-- Mirrors `LoadBalancer::shouldSwitchStrategy`: mean cpu or mean memory usage
above 0.9. -/
def shouldSwitchStrategy (metrics : List KernelMetrics) : Bool :=
  let avgCpuUsage := (metrics.map (fun m => m.cpuUsage)).sum / metrics.length
  let avgMemoryUsage :=
    (metrics.map (fun m => m.memoryUsage)).sum / metrics.length
  decide (avgCpuUsage > 9/10) || decide (avgMemoryUsage > 9/10)

/-- The strategy switch at the top of `balance`: `ResourceAware` becomes
`WorkloadSpecific`; everything else becomes `ResourceAware`. -/
def toggleStrategy (lb : LoadBalancer) : LoadBalancer :=
  if lb.strategyEnum = .ResourceAware then
    { lb with strategyEnum := .WorkloadSpecific, strategy := "workload_specific" }
  else
    { lb with strategyEnum := .ResourceAware, strategy := "resource_aware" }

/-- One iteration of the dispatch loops of `balance`: select a kernel by
the current strategy (the switch cases for `ResourceAware` and
`WorkloadSpecific` also bump their decision counters; `HybridAdaptive`
and the `default` label bump none) and count the decision in
`totalDecisions_`. -/
def dispatchOne (lb : LoadBalancer) (metrics : List KernelMetrics)
    (t : TaskDescriptor) : Nat × LoadBalancer :=
  let sel :=
    match lb.strategyEnum with
    | .ResourceAware =>
      let r := selectByResourceAware lb metrics t
      (r.1, { r.2 with resourceAwareDecisions := r.2.resourceAwareDecisions + 1 })
    | .WorkloadSpecific =>
      (selectByWorkloadSpecific metrics t,
       { lb with workloadSpecificDecisions := lb.workloadSpecificDecisions + 1 })
    | .HybridAdaptive => selectByHybridAdaptive lb metrics t
    | _ => selectByResourceAware lb metrics t
  (sel.1, { sel.2 with totalDecisions := sel.2.totalDecisions + 1 })

/-- A dispatch loop of `balance` over one priority class, in input order;
returns the updated balancer and the `(selected kernel, task)` pairs in
`scheduleTask` invocation order. -/
def processTasks (lb : LoadBalancer) (metrics : List KernelMetrics) :
    List TaskDescriptor → LoadBalancer × List (Nat × TaskDescriptor)
  | [] => (lb, [])
  | t :: ts =>
    let r := dispatchOne lb metrics t
    let rest := processTasks r.2 metrics ts
    (rest.1, (r.1, t) :: rest.2)

/-- Mirrors `LoadBalancer::balance(kernels, tasks, metrics)`: no-op guard, adaptive
strategy switch, split by priority (`≥ 7` is high), dispatch high then
low. -/
def balance (lb : LoadBalancer) (nKernels : Nat)
    (tasks : List TaskDescriptor) (metrics : List KernelMetrics) :
    LoadBalancer × List (Nat × TaskDescriptor) :=
  if nKernels = 0 ∨ tasks = [] ∨ metrics.length ≠ nKernels then (lb, [])
  else
    let lb0 := if shouldSwitchStrategy metrics then toggleStrategy lb else lb
    let highPriority := tasks.filter (fun t => decide (t.priority ≥ 7))
    let lowPriority := tasks.filter (fun t => decide (¬ (t.priority ≥ 7)))
    let r1 := processTasks lb0 metrics highPriority
    let r2 := processTasks r1.1 metrics lowPriority
    (r2.1, r1.2 ++ r2.2)

/-- Mirrors `LoadBalancer::setResourceWeights`: plain stores, no normalization. -/
def setResourceWeights (lb : LoadBalancer)
    (cpuWeight memoryWeight networkWeight energyWeight : ℚ) : LoadBalancer :=
  { lb with
    cpuWeight := cpuWeight
    memoryWeight := memoryWeight
    networkWeight := networkWeight
    energyWeight := energyWeight }

/-- Both branches of `selectByResourceAware` leave every field except the
round-robin cursor untouched. -/
theorem selectRA_state (lb : LoadBalancer) (metrics : List KernelMetrics)
    (t : TaskDescriptor) :
    ∃ r, (selectByResourceAware lb metrics t).2 = { lb with rrIdx := r } := by
  unfold selectByResourceAware
  cases metrics with
  | nil => exact ⟨lb.rrIdx, rfl⟩
  | cons m0 rest =>
    dsimp only
    split
    · exact ⟨_, rfl⟩
    · exact ⟨lb.rrIdx, rfl⟩

/-- Both branches of `selectByHybridAdaptive` leave every field except the
round-robin cursor untouched. -/
theorem selectHybrid_state (lb : LoadBalancer) (metrics : List KernelMetrics)
    (t : TaskDescriptor) :
    ∃ r, (selectByHybridAdaptive lb metrics t).2 = { lb with rrIdx := r } := by
  unfold selectByHybridAdaptive
  cases metrics with
  | nil => exact ⟨lb.rrIdx, rfl⟩
  | cons m0 rest =>
    dsimp only
    split
    · exact ⟨_, rfl⟩
    · exact ⟨lb.rrIdx, rfl⟩

/-- One dispatch preserves the strategy fields and adds one to
`totalDecisions_`. -/
theorem dispatchOne_fields (lb : LoadBalancer) (metrics : List KernelMetrics)
    (t : TaskDescriptor) :
    (dispatchOne lb metrics t).2.strategyEnum = lb.strategyEnum ∧
    (dispatchOne lb metrics t).2.strategy = lb.strategy ∧
    (dispatchOne lb metrics t).2.totalDecisions = lb.totalDecisions + 1 := by
  unfold dispatchOne
  cases hs : lb.strategyEnum
  case ResourceAware =>
    obtain ⟨r, hr⟩ := selectRA_state lb metrics t
    simp [hs, hr]
  case WorkloadSpecific => simp [hs]
  case HybridAdaptive =>
    obtain ⟨r, hr⟩ := selectHybrid_state lb metrics t
    simp [hs, hr]
  case PriorityAdaptive =>
    obtain ⟨r, hr⟩ := selectRA_state lb metrics t
    simp [hs, hr]
  case LeastLoaded =>
    obtain ⟨r, hr⟩ := selectRA_state lb metrics t
    simp [hs, hr]
  case RoundRobin =>
    obtain ⟨r, hr⟩ := selectRA_state lb metrics t
    simp [hs, hr]

/-- A dispatch loop delivers exactly its input tasks in input order,
preserves the strategy fields, and counts its tasks in
`totalDecisions_`. -/
theorem processTasks_spec (metrics : List KernelMetrics) :
    ∀ (ts : List TaskDescriptor) (lb : LoadBalancer),
    (processTasks lb metrics ts).2.map Prod.snd = ts ∧
    (processTasks lb metrics ts).1.strategyEnum = lb.strategyEnum ∧
    (processTasks lb metrics ts).1.strategy = lb.strategy ∧
    (processTasks lb metrics ts).1.totalDecisions =
      lb.totalDecisions + ts.length ∧
    (processTasks lb metrics ts).2.length = ts.length := by
  intro ts
  induction ts with
  | nil =>
    intro lb
    exact ⟨rfl, rfl, rfl, by simp [processTasks], rfl⟩
  | cons t ts ih =>
    intro lb
    have hd := dispatchOne_fields lb metrics t
    have ihh := ih (dispatchOne lb metrics t).2
    simp only [processTasks, List.map_cons, List.length_cons]
    refine ⟨?_, ?_, ?_, ?_, ?_⟩
    · rw [ihh.1]
    · rw [ihh.2.1, hd.1]
    · rw [ihh.2.2.1, hd.2.1]
    · rw [ihh.2.2.2.1, hd.2.2]
      omega
    · rw [ihh.2.2.2.2]

/-- In a non-trivial `balance` call the configured strategy after the call
is the strategy selected by the adaptive switch at its top. -/
theorem balance_strategyEnum_eq (lb : LoadBalancer) (n : Nat)
    (tasks : List TaskDescriptor) (metrics : List KernelMetrics)
    (hguard : ¬ (n = 0 ∨ tasks = [] ∨ metrics.length ≠ n)) :
    (balance lb n tasks metrics).1.strategyEnum =
      (if shouldSwitchStrategy metrics then toggleStrategy lb
        else lb).strategyEnum ∧
    (balance lb n tasks metrics).1.strategy =
      (if shouldSwitchStrategy metrics then toggleStrategy lb
        else lb).strategy := by
  constructor
  · simp only [balance, if_neg hguard]
    rw [(processTasks_spec _ _ _).2.1, (processTasks_spec _ _ _).2.1]
  · simp only [balance, if_neg hguard]
    rw [(processTasks_spec _ _ _).2.2.1, (processTasks_spec _ _ _).2.2.1]

/-- Under HybridAdaptive, one dispatch bumps neither per-strategy
counter. -/
theorem dispatchOne_hybrid_counters (lb : LoadBalancer)
    (metrics : List KernelMetrics) (t : TaskDescriptor)
    (h : lb.strategyEnum = BalancingStrategy.HybridAdaptive) :
    (dispatchOne lb metrics t).2.resourceAwareDecisions =
      lb.resourceAwareDecisions ∧
    (dispatchOne lb metrics t).2.workloadSpecificDecisions =
      lb.workloadSpecificDecisions := by
  unfold dispatchOne
  obtain ⟨r, hr⟩ := selectHybrid_state lb metrics t
  simp [h, hr]

/-- Under HybridAdaptive, a whole dispatch loop bumps neither per-strategy
counter. -/
theorem processTasks_hybrid_counters (metrics : List KernelMetrics) :
    ∀ (ts : List TaskDescriptor) (lb : LoadBalancer),
    lb.strategyEnum = BalancingStrategy.HybridAdaptive →
    (processTasks lb metrics ts).1.resourceAwareDecisions =
      lb.resourceAwareDecisions ∧
    (processTasks lb metrics ts).1.workloadSpecificDecisions =
      lb.workloadSpecificDecisions := by
  intro ts
  induction ts with
  | nil => intro lb _; exact ⟨rfl, rfl⟩
  | cons t ts ih =>
    intro lb h
    have hd := dispatchOne_hybrid_counters lb metrics t h
    have henum := (dispatchOne_fields lb metrics t).1
    have ihh := ih (dispatchOne lb metrics t).2 (by rw [henum]; exact h)
    simp only [processTasks]
    exact ⟨by rw [ihh.1, hd.1], by rw [ihh.2, hd.2]⟩

/-- Changing only the round-robin cursor leaves every resource score
unchanged. -/
theorem calculateResourceScore_rrIdx (lb : LoadBalancer) (r : Nat)
    (m : KernelMetrics) (t : TaskDescriptor) :
    calculateResourceScore { lb with rrIdx := r } m t =
      calculateResourceScore lb m t := rfl

/-- When every kernel's score is within 0.001 of the first kernel's,
`selectByResourceAware` returns `rrIdx % len` and advances the cursor. -/
theorem selectRA_tie (lb : LoadBalancer) (m0 : KernelMetrics)
    (rest : List KernelMetrics) (t : TaskDescriptor)
    (htie : rest.all (fun m =>
      decide (qabs (calculateResourceScore lb m t -
        calculateResourceScore lb m0 t) ≤ 1/1000)) = true) :
    selectByResourceAware lb (m0 :: rest) t =
      (lb.rrIdx % (m0 :: rest).length,
       { lb with rrIdx := (lb.rrIdx + 1) % (m0 :: rest).length }) := by
  unfold selectByResourceAware
  dsimp only
  rw [if_pos htie]

/-- Iterates `n` successive selections with the same metrics and task, threading the
balancer state. -/
def selectIter (lb : LoadBalancer) (metrics : List KernelMetrics)
    (t : TaskDescriptor) : Nat → List Nat × LoadBalancer
  | 0 => ([], lb)
  | k + 1 =>
    let r := selectByResourceAware lb metrics t
    let rest := selectIter r.2 metrics t k
    (r.1 :: rest.1, rest.2)

/-- Under a uniform tie, `k` successive selections return the cursor
positions `rrIdx, rrIdx+1, …` modulo the kernel count. -/
theorem selectIter_formula (m0 : KernelMetrics) (rest : List KernelMetrics)
    (t : TaskDescriptor) :
    ∀ (k : Nat) (lb : LoadBalancer),
    (rest.all (fun m =>
      decide (qabs (calculateResourceScore lb m t -
        calculateResourceScore lb m0 t) ≤ 1/1000)) = true) →
    (selectIter lb (m0 :: rest) t k).1 =
      (List.range k).map
        (fun j => (lb.rrIdx + j) % (m0 :: rest).length) := by
  intro k
  induction k with
  | zero => intro lb _; simp [selectIter]
  | succ kk ih =>
    intro lb htie
    have hstep := selectRA_tie lb m0 rest t htie
    have ihh := ih { lb with rrIdx := (lb.rrIdx + 1) % (m0 :: rest).length }
      htie
    have hshift : List.map
        (fun j => ((lb.rrIdx + 1) % (m0 :: rest).length + j) %
          (m0 :: rest).length) (List.range kk) =
        List.map (fun j => (lb.rrIdx + (j + 1)) % (m0 :: rest).length)
          (List.range kk) := by
      apply List.map_congr_left
      intro j _
      rw [Nat.mod_add_mod]
      congr 1
      omega
    simp only [selectIter, hstep]
    rw [ihh]
    dsimp only
    rw [hshift, List.range_succ_eq_map, List.map_cons, List.map_map]
    simp [Function.comp_def]

/-- In a dispatch list whose task projection splits as `high ++ low`, with
every `high` task high-priority and every `low` task not, any dispatch at
a position carrying priority ≥ 7 is preceded only by priority-≥-7
dispatches. -/
theorem precedence_of_map_split (d : List (Nat × TaskDescriptor))
    (high low : List TaskDescriptor)
    (hmap : d.map Prod.snd = high ++ low)
    (hhigh : ∀ t ∈ high, (7 : Int) ≤ t.priority)
    (hlow : ∀ t ∈ low, ¬ (7 : Int) ≤ t.priority) :
    ∀ (i j : Nat) (hi : i < d.length) (hj : j < d.length), i < j →
      7 ≤ (d.get ⟨j, hj⟩).2.priority → 7 ≤ (d.get ⟨i, hi⟩).2.priority := by
  intro i j hi hj hij hpj
  have hlen : d.length = high.length + low.length := by
    rw [← List.length_map d Prod.snd, hmap, List.length_append]
  have key : ∀ (kk : Nat) (hk : kk < d.length)
      (hk2 : kk < (high ++ low).length),
      (d.get ⟨kk, hk⟩).2 = (high ++ low).get ⟨kk, hk2⟩ := by
    intro kk hk hk2
    have h2 : kk < (List.map Prod.snd d).length := by simpa using hk
    have h3 : (List.map Prod.snd d).get ⟨kk, h2⟩ = (d.get ⟨kk, hk⟩).2 := by
      simp
    rw [← h3, List.get_of_eq hmap ⟨kk, h2⟩]
  rcases lt_or_ge j high.length with hjlt | hjge
  · have hilt : i < high.length := lt_trans hij hjlt
    have hk2 : i < (high ++ low).length := by
      rw [List.length_append]; omega
    have hmem : (d.get ⟨i, hi⟩).2 ∈ high := by
      rw [key i hi hk2]
      simp only [List.get_eq_getElem]
      rw [List.getElem_append_left hilt]
      exact List.getElem_mem _
    exact hhigh _ hmem
  · exfalso
    have hk2 : j < (high ++ low).length := by
      rw [List.length_append]; omega
    have hmem : (d.get ⟨j, hj⟩).2 ∈ low := by
      rw [key j hj hk2]
      simp only [List.get_eq_getElem]
      rw [List.getElem_append_right hjge]
      exact List.getElem_mem _
    exact hlow _ hmem hpj

end balancer

/-- C4: in a single `balance` call, the `scheduleTask` invocations are
exactly the high-priority tasks (priority ≥ 7) in input order followed by
the low-priority tasks in input order, so every high-priority dispatch
precedes every low-priority dispatch. -/
theorem lb_priority_precedence (lb : balancer.LoadBalancer) (n : Nat)
    (tasks : List balancer.TaskDescriptor)
    (metrics : List balancer.KernelMetrics)
    (hn : n ≠ 0) (hm : metrics.length = n) :
    (balancer.balance lb n tasks metrics).2.map Prod.snd =
      tasks.filter (fun t => decide (t.priority ≥ 7)) ++
        tasks.filter (fun t => decide (¬ (t.priority ≥ 7))) ∧
    (∀ (i j : Nat) (hi : i < (balancer.balance lb n tasks metrics).2.length)
      (hj : j < (balancer.balance lb n tasks metrics).2.length), i < j →
      7 ≤ ((balancer.balance lb n tasks metrics).2.get ⟨j, hj⟩).2.priority →
      7 ≤ ((balancer.balance lb n tasks metrics).2.get ⟨i, hi⟩).2.priority) := by
  by_cases htask : tasks = []
  · subst htask
    constructor
    · simp [balancer.balance]
    · intro i j hi hj _ _
      simp [balancer.balance] at hi
  · have hguard : ¬ (n = 0 ∨ tasks = [] ∨ metrics.length ≠ n) := by
      push_neg
      exact ⟨hn, htask, hm⟩
    have hmap :
        (balancer.balance lb n tasks metrics).2.map Prod.snd =
          tasks.filter (fun t => decide (t.priority ≥ 7)) ++
            tasks.filter (fun t => decide (¬ (t.priority ≥ 7))) := by
      simp only [balancer.balance, if_neg hguard, List.map_append]
      rw [(balancer.processTasks_spec metrics _ _).1,
        (balancer.processTasks_spec metrics _ _).1]
    refine ⟨hmap, ?_⟩
    refine balancer.precedence_of_map_split _ _ _ hmap ?_ ?_
    · intro t ht
      have := (List.mem_filter.mp ht).2
      exact of_decide_eq_true this
    · intro t ht
      have := (List.mem_filter.mp ht).2
      exact of_decide_eq_true this

/-- C4 (witness): two identical kernels, tasks with priorities
`[1, 8, 2, 9]`; the dispatch order is the two high-priority tasks then the
two low-priority ones, in input order within each class. -/
theorem lb_priority_precedence_witness :
    (balancer.balance {} 2
        [{ priority := 1 }, { priority := 8 }, { priority := 2 },
         { priority := 9 }] [{}, {}]).2.map Prod.snd =
      [{ priority := 1 }, { priority := 8 }, { priority := 2 },
         { priority := 9 }].filter
          (fun t : balancer.TaskDescriptor => decide (t.priority ≥ 7)) ++
        [{ priority := 1 }, { priority := 8 }, { priority := 2 },
         { priority := 9 }].filter
          (fun t : balancer.TaskDescriptor => decide (¬ (t.priority ≥ 7))) ∧
    (∀ (i j : Nat)
      (hi : i < (balancer.balance {} 2
        [{ priority := 1 }, { priority := 8 }, { priority := 2 },
         { priority := 9 }] [{}, {}]).2.length)
      (hj : j < (balancer.balance {} 2
        [{ priority := 1 }, { priority := 8 }, { priority := 2 },
         { priority := 9 }] [{}, {}]).2.length), i < j →
      7 ≤ ((balancer.balance {} 2
        [{ priority := 1 }, { priority := 8 }, { priority := 2 },
         { priority := 9 }] [{}, {}]).2.get ⟨j, hj⟩).2.priority →
      7 ≤ ((balancer.balance {} 2
        [{ priority := 1 }, { priority := 8 }, { priority := 2 },
         { priority := 9 }] [{}, {}]).2.get ⟨i, hi⟩).2.priority) :=
  lb_priority_precedence {} 2
    [{ priority := 1 }, { priority := 8 }, { priority := 2 },
     { priority := 9 }] [{}, {}] (by decide) (by decide)

/-- C5 (counterexample): with the default configured strategy
HybridAdaptive and one kernel at cpu 0.95 / memory 0.95, the configured
strategy observable after the `balance` call is ResourceAware: the
auto-switch is not restricted to ResourceAware/WorkloadSpecific and it
persists past the call, refuting "no automatic switch occurs [for other
strategies], and the configured strategy observable after the call is the
same as before it". -/
theorem lb_strategy_switch_counterexample :
    ({} : balancer.LoadBalancer).strategyEnum =
      balancer.BalancingStrategy.HybridAdaptive ∧
    (balancer.balance {} 1 [{}]
        [{ cpuUsage := 19/20, memoryUsage := 19/20 }]).1.strategyEnum =
      balancer.BalancingStrategy.ResourceAware ∧
    (balancer.balance {} 1 [{}]
        [{ cpuUsage := 19/20, memoryUsage := 19/20 }]).1.strategyEnum ≠
      ({} : balancer.LoadBalancer).strategyEnum := by
  have hsw : balancer.shouldSwitchStrategy
      [{ cpuUsage := 19/20, memoryUsage := 19/20 }] = true := by
    unfold balancer.shouldSwitchStrategy
    norm_num
  have hguard : ¬ ((1 : Nat) = 0 ∨
      ([{}] : List balancer.TaskDescriptor) = [] ∨
      ([{ cpuUsage := 19/20, memoryUsage := 19/20 }] :
        List balancer.KernelMetrics).length ≠ 1) := by
    simp
  have h := (balancer.balance_strategyEnum_eq {} 1 [{}]
    [{ cpuUsage := 19/20, memoryUsage := 19/20 }] hguard).1
  rw [hsw] at h
  simp only [if_true, balancer.toggleStrategy] at h
  refine ⟨rfl, ?_, ?_⟩
  · rw [h]
    rfl
  · rw [h]
    decide

/-- C5 (amended): in a non-trivial `balance` call, when the mean cpu or
mean memory usage over the metrics exceeds 0.9 the balancer switches
persistently — ResourceAware becomes WorkloadSpecific and every other
strategy (WorkloadSpecific, HybridAdaptive, LeastLoaded, RoundRobin,
PriorityAdaptive) becomes ResourceAware — and the new strategy remains
configured after the call; when neither mean exceeds 0.9 the configured
strategy is unchanged. -/
theorem lb_strategy_switch (lb : balancer.LoadBalancer) (n : Nat)
    (tasks : List balancer.TaskDescriptor)
    (metrics : List balancer.KernelMetrics)
    (hn : n ≠ 0) (ht : tasks ≠ []) (hm : metrics.length = n) :
    (balancer.balance lb n tasks metrics).1.strategyEnum =
      (if balancer.shouldSwitchStrategy metrics then
        (if lb.strategyEnum = balancer.BalancingStrategy.ResourceAware then
          balancer.BalancingStrategy.WorkloadSpecific
        else balancer.BalancingStrategy.ResourceAware)
      else lb.strategyEnum) ∧
    (balancer.balance lb n tasks metrics).1.strategy =
      (if balancer.shouldSwitchStrategy metrics then
        (if lb.strategyEnum = balancer.BalancingStrategy.ResourceAware then
          "workload_specific"
        else "resource_aware")
      else lb.strategy) := by
  have hguard : ¬ (n = 0 ∨ tasks = [] ∨ metrics.length ≠ n) := by
    push_neg
    exact ⟨hn, ht, hm⟩
  have hEnum := (balancer.balance_strategyEnum_eq lb n tasks metrics hguard).1
  have hStr := (balancer.balance_strategyEnum_eq lb n tasks metrics hguard).2
  constructor
  · rw [hEnum]
    by_cases hsw : balancer.shouldSwitchStrategy metrics
    · simp only [hsw, if_true]
      unfold balancer.toggleStrategy
      by_cases hra :
          lb.strategyEnum = balancer.BalancingStrategy.ResourceAware
      · simp [hra]
      · simp [hra]
    · simp [hsw]
  · rw [hStr]
    by_cases hsw : balancer.shouldSwitchStrategy metrics
    · simp only [hsw, if_true]
      unfold balancer.toggleStrategy
      by_cases hra :
          lb.strategyEnum = balancer.BalancingStrategy.ResourceAware
      · simp [hra]
      · simp [hra]
    · simp [hsw]

/-- C5 (witness): the amended switch rule at a concrete saturated input
starting from the default HybridAdaptive configuration. -/
theorem lb_strategy_switch_witness :
    (balancer.balance {} 1 [{}]
        [{ cpuUsage := 19/20, memoryUsage := 19/20 }]).1.strategyEnum =
      (if balancer.shouldSwitchStrategy
          [{ cpuUsage := 19/20, memoryUsage := 19/20 }] then
        (if ({} : balancer.LoadBalancer).strategyEnum =
            balancer.BalancingStrategy.ResourceAware then
          balancer.BalancingStrategy.WorkloadSpecific
        else balancer.BalancingStrategy.ResourceAware)
      else ({} : balancer.LoadBalancer).strategyEnum) ∧
    (balancer.balance {} 1 [{}]
        [{ cpuUsage := 19/20, memoryUsage := 19/20 }]).1.strategy =
      (if balancer.shouldSwitchStrategy
          [{ cpuUsage := 19/20, memoryUsage := 19/20 }] then
        (if ({} : balancer.LoadBalancer).strategyEnum =
            balancer.BalancingStrategy.ResourceAware then
          "workload_specific"
        else "resource_aware")
      else ({} : balancer.LoadBalancer).strategy) :=
  lb_strategy_switch {} 1 [{}] [{ cpuUsage := 19/20, memoryUsage := 19/20 }]
    (by decide) (by decide) (by decide)

/-- C6 (counterexample): `setResourceWeights(2,2,2,2)` stores the weights
verbatim, so the weights used in scoring sum to 8, not 1 within 1e-9. -/
theorem lb_weights_counterexample :
    ¬ (balancer.qabs
        ((balancer.setResourceWeights {} 2 2 2 2).cpuWeight +
          (balancer.setResourceWeights {} 2 2 2 2).memoryWeight +
          (balancer.setResourceWeights {} 2 2 2 2).networkWeight +
          (balancer.setResourceWeights {} 2 2 2 2).energyWeight - 1) ≤
        1 / 1000000000) := by
  have h : (balancer.setResourceWeights {} 2 2 2 2).cpuWeight +
      (balancer.setResourceWeights {} 2 2 2 2).memoryWeight +
      (balancer.setResourceWeights {} 2 2 2 2).networkWeight +
      (balancer.setResourceWeights {} 2 2 2 2).energyWeight - 1 = (7 : ℚ) := by
    norm_num [balancer.setResourceWeights]
  rw [h]
  simp only [balancer.qabs]
  rw [if_neg (by norm_num : ¬ ((7 : ℚ) < 0))]
  norm_num

/-- C6 (amended): `setResourceWeights(a,b,c,d)` performs no normalization:
it stores the four arguments verbatim, the resource score is computed from
exactly these stored weights, and the weights used in scoring therefore
sum to `a + b + c + d`. -/
theorem lb_weights_spec (lb : balancer.LoadBalancer) (a b c d : ℚ) :
    (balancer.setResourceWeights lb a b c d).cpuWeight = a ∧
    (balancer.setResourceWeights lb a b c d).memoryWeight = b ∧
    (balancer.setResourceWeights lb a b c d).networkWeight = c ∧
    (balancer.setResourceWeights lb a b c d).energyWeight = d ∧
    (balancer.setResourceWeights lb a b c d).cpuWeight +
      (balancer.setResourceWeights lb a b c d).memoryWeight +
      (balancer.setResourceWeights lb a b c d).networkWeight +
      (balancer.setResourceWeights lb a b c d).energyWeight =
      a + b + c + d ∧
    ∀ (m : balancer.KernelMetrics) (t : balancer.TaskDescriptor),
      balancer.calculateResourceScore
          (balancer.setResourceWeights lb a b c d) m t =
        (1 - m.cpuUsage) * a +
        (if 0 < t.estimatedMemoryUsage then
          (1 - m.memoryUsage) * b *
            (1 - (t.estimatedMemoryUsage : ℚ) / 1073741824)
        else (1 - m.memoryUsage) * b) +
        m.networkBandwidth / 1000 * c +
        (1 - m.energyConsumption / 100) * d := by
  refine ⟨rfl, rfl, rfl, rfl, rfl, ?_⟩
  intro m t
  simp only [balancer.calculateResourceScore, balancer.setResourceWeights]

/-- C8 (counterexample): under the default HybridAdaptive strategy one
dispatched task bumps no per-strategy counter, so the sum of the
per-strategy decision counters (0) differs from the number of dispatched
tasks (1). -/
theorem lb_decision_counters_counterexample :
    ¬ ((balancer.balance {} 1 [{}] [{}]).1.resourceAwareDecisions +
        (balancer.balance {} 1 [{}] [{}]).1.workloadSpecificDecisions =
        (balancer.balance {} 1 [{}] [{}]).2.length) := by
  have hsw : balancer.shouldSwitchStrategy [{}] = false := by
    unfold balancer.shouldSwitchStrategy
    norm_num
  have hguard : ¬ ((1 : Nat) = 0 ∨
      ([{}] : List balancer.TaskDescriptor) = [] ∨
      ([{}] : List balancer.KernelMetrics).length ≠ 1) := by
    simp
  have hlow : ([{}] : List balancer.TaskDescriptor).filter
      (fun t => decide (¬ (t.priority ≥ 7))) = [{}] := rfl
  have hhigh : ([{}] : List balancer.TaskDescriptor).filter
      (fun t => decide (t.priority ≥ 7)) = [] := rfl
  have hlen : (balancer.balance {} 1 [{}] [{}]).2.length = 1 := by
    simp only [balancer.balance, if_neg hguard, List.length_append]
    rw [(balancer.processTasks_spec _ _ _).2.2.2.2,
      (balancer.processTasks_spec _ _ _).2.2.2.2, hlow, hhigh]
    rfl
  have hcnt := balancer.processTasks_hybrid_counters [{}]
    (([{}] : List balancer.TaskDescriptor).filter
      (fun t => decide (¬ (t.priority ≥ 7))))
    (balancer.processTasks
      (if balancer.shouldSwitchStrategy [{}] then balancer.toggleStrategy {}
        else {}) [{}]
      (([{}] : List balancer.TaskDescriptor).filter
        (fun t => decide (t.priority ≥ 7)))).1
    (by
      rw [(balancer.processTasks_spec _ _ _).2.1, hsw]
      rfl)
  have hcnt2 := balancer.processTasks_hybrid_counters [{}]
    (([{}] : List balancer.TaskDescriptor).filter
      (fun t => decide (t.priority ≥ 7)))
    (if balancer.shouldSwitchStrategy [{}] then balancer.toggleStrategy {}
      else {})
    (by rw [hsw]; rfl)
  have hra : (balancer.balance {} 1 [{}] [{}]).1.resourceAwareDecisions = 0 := by
    simp only [balancer.balance, if_neg hguard]
    rw [hcnt.1, hcnt2.1, hsw]
    rfl
  have hws : (balancer.balance {} 1 [{}] [{}]).1.workloadSpecificDecisions = 0 := by
    simp only [balancer.balance, if_neg hguard]
    rw [hcnt.2, hcnt2.2, hsw]
    rfl
  rw [hra, hws, hlen]
  decide

/-- A single `balance` call adds exactly the number of dispatched tasks to
`totalDecisions_`. -/
theorem balance_totalDecisions (lb : balancer.LoadBalancer) (n : Nat)
    (tasks : List balancer.TaskDescriptor)
    (metrics : List balancer.KernelMetrics) :
    (balancer.balance lb n tasks metrics).1.totalDecisions =
      lb.totalDecisions + (balancer.balance lb n tasks metrics).2.length := by
  unfold balancer.balance
  split
  · simp
  · dsimp only
    have htog : (if balancer.shouldSwitchStrategy metrics then
        balancer.toggleStrategy lb else lb).totalDecisions =
        lb.totalDecisions := by
      unfold balancer.toggleStrategy
      split
      · split <;> rfl
      · rfl
    have h1 := balancer.processTasks_spec metrics
      (tasks.filter (fun t => decide (t.priority ≥ 7)))
      (if balancer.shouldSwitchStrategy metrics then
        balancer.toggleStrategy lb else lb)
    have h2 := balancer.processTasks_spec metrics
      (tasks.filter (fun t => decide (¬ (t.priority ≥ 7))))
      (balancer.processTasks
        (if balancer.shouldSwitchStrategy metrics then
          balancer.toggleStrategy lb else lb) metrics
        (tasks.filter (fun t => decide (t.priority ≥ 7)))).1
    have e1 := h1.2.2.2.1
    have e2 := h2.2.2.2.1
    have l1 := h1.2.2.2.2
    have l2 := h2.2.2.2.2
    rw [List.length_append]
    omega

/-- One `balance` call per list element, accumulating the number of
dispatched tasks. -/
def balanceSeq (lb : balancer.LoadBalancer) :
    List (Nat × List balancer.TaskDescriptor ×
      List balancer.KernelMetrics) → balancer.LoadBalancer × Nat
  | [] => (lb, 0)
  | inp :: rest =>
    let r := balancer.balance lb inp.1 inp.2.1 inp.2.2
    let s := balanceSeq r.1 rest
    (s.1, r.2.length + s.2)

/-- C8 (amended): after any sequence of `balance` calls under any
configured strategy, the TOTAL decision counter grows by exactly the
number of tasks dispatched across those calls; only the `ResourceAware`
and `WorkloadSpecific` switch cases bump a per-strategy counter, so the
claimed equality for the per-strategy sum fails under HybridAdaptive. -/
theorem lb_decision_counters_total
    (inputs : List (Nat × List balancer.TaskDescriptor ×
      List balancer.KernelMetrics)) :
    ∀ lb : balancer.LoadBalancer,
      (balanceSeq lb inputs).1.totalDecisions =
        lb.totalDecisions + (balanceSeq lb inputs).2 := by
  induction inputs with
  | nil => intro lb; simp [balanceSeq]
  | cons inp rest ih =>
    intro lb
    have hbal := balance_totalDecisions lb inp.1 inp.2.1 inp.2.2
    have hrest := ih (balancer.balance lb inp.1 inp.2.1 inp.2.2).1
    simp only [balanceSeq]
    omega

/-- C7: when all per-kernel resource scores computed for a task are within
0.001 of each other, `selectByResourceAware` selects the internal cursor
modulo the number of kernels and advances the cursor; consequently `n`
successive tied selections over `n` kernels return the consecutive cursor
positions modulo `n` — a duplicate-free list visiting every kernel index
exactly once in cyclic order. -/
theorem lb_tie_round_robin (lb : balancer.LoadBalancer)
    (m0 : balancer.KernelMetrics) (rest : List balancer.KernelMetrics)
    (t : balancer.TaskDescriptor)
    (htie : ∀ m1 ∈ (m0 :: rest), ∀ m2 ∈ (m0 :: rest),
      balancer.qabs (balancer.calculateResourceScore lb m1 t -
        balancer.calculateResourceScore lb m2 t) ≤ 1/1000) :
    (balancer.selectByResourceAware lb (m0 :: rest) t).1 =
      lb.rrIdx % (m0 :: rest).length ∧
    (balancer.selectByResourceAware lb (m0 :: rest) t).2 =
      { lb with rrIdx := (lb.rrIdx + 1) % (m0 :: rest).length } ∧
    (balancer.selectIter lb (m0 :: rest) t (m0 :: rest).length).1 =
      (List.range (m0 :: rest).length).map
        (fun j => (lb.rrIdx + j) % (m0 :: rest).length) ∧
    ((balancer.selectIter lb (m0 :: rest) t (m0 :: rest).length).1).Nodup ∧
    ∀ i < (m0 :: rest).length,
      i ∈ (balancer.selectIter lb (m0 :: rest) t (m0 :: rest).length).1 := by
  have hall : rest.all (fun m =>
      decide (balancer.qabs (balancer.calculateResourceScore lb m t -
        balancer.calculateResourceScore lb m0 t) ≤ 1/1000)) = true := by
    rw [List.all_eq_true]
    intro m hm
    exact decide_eq_true
      (htie m (List.mem_cons_of_mem _ hm) m0 (List.mem_cons_self _ _))
  have hstep := balancer.selectRA_tie lb m0 rest t hall
  have hform := balancer.selectIter_formula m0 rest t (m0 :: rest).length
    lb hall
  have hpos : 0 < (m0 :: rest).length := by simp
  have hnodup :
      ((balancer.selectIter lb (m0 :: rest) t (m0 :: rest).length).1).Nodup := by
    rw [hform]
    refine List.Nodup.map_on ?_ (List.nodup_range _)
    intro j1 h1 j2 h2 heq
    rw [List.mem_range] at h1 h2
    have hmod : (lb.rrIdx + j1) ≡ (lb.rrIdx + j2)
        [MOD (m0 :: rest).length] := heq
    have := Nat.ModEq.add_left_cancel' lb.rrIdx hmod
    have hj : j1 % (m0 :: rest).length = j2 % (m0 :: rest).length := this
    rwa [Nat.mod_eq_of_lt h1, Nat.mod_eq_of_lt h2] at hj
  refine ⟨by rw [hstep], by rw [hstep], hform, hnodup, ?_⟩
  intro i hi
  have hlen :
      ((balancer.selectIter lb (m0 :: rest) t (m0 :: rest).length).1).length =
        (m0 :: rest).length := by
    rw [hform]
    simp
  have hsub :
      ((balancer.selectIter lb (m0 :: rest) t
        (m0 :: rest).length).1).toFinset ⊆
        Finset.range (m0 :: rest).length := by
    intro x hx
    rw [List.mem_toFinset, hform] at hx
    obtain ⟨j, _, rfl⟩ := List.mem_map.mp hx
    exact Finset.mem_range.mpr (Nat.mod_lt _ hpos)
  have hcard :
      ((balancer.selectIter lb (m0 :: rest) t
        (m0 :: rest).length).1).toFinset.card = (m0 :: rest).length := by
    rw [List.toFinset_card_of_nodup hnodup, hlen]
  have heq :
      ((balancer.selectIter lb (m0 :: rest) t
        (m0 :: rest).length).1).toFinset =
        Finset.range (m0 :: rest).length :=
    Finset.eq_of_subset_of_card_le hsub
      (by rw [hcard, Finset.card_range])
  rw [← List.mem_toFinset, heq]
  exact Finset.mem_range.mpr hi

/-- C7 (witness): two kernels with identical (hence tied) metrics; two
successive selections starting at cursor 0 return `[0, 1]`, visiting both
kernels once. -/
theorem lb_tie_round_robin_witness :
    (balancer.selectByResourceAware {} [{}, {}] {}).1 =
      ({} : balancer.LoadBalancer).rrIdx %
        ([{}, {}] : List balancer.KernelMetrics).length ∧
    (balancer.selectByResourceAware {} [{}, {}] {}).2 =
      { ({} : balancer.LoadBalancer) with
        rrIdx := (({} : balancer.LoadBalancer).rrIdx + 1) %
          ([{}, {}] : List balancer.KernelMetrics).length } ∧
    (balancer.selectIter {} [{}, {}] {}
        ([{}, {}] : List balancer.KernelMetrics).length).1 =
      (List.range ([{}, {}] : List balancer.KernelMetrics).length).map
        (fun j => (({} : balancer.LoadBalancer).rrIdx + j) %
          ([{}, {}] : List balancer.KernelMetrics).length) ∧
    ((balancer.selectIter {} [{}, {}] {}
        ([{}, {}] : List balancer.KernelMetrics).length).1).Nodup ∧
    ∀ i < ([{}, {}] : List balancer.KernelMetrics).length,
      i ∈ (balancer.selectIter {} [{}, {}] {}
        ([{}, {}] : List balancer.KernelMetrics).length).1 :=
  lb_tie_round_robin {} {} [{}] {}
    (by
      intro m1 h1 m2 h2
      simp only [List.mem_cons, List.not_mem_nil, or_false] at h1 h2
      rcases h1 with h1 | h1 <;> rcases h2 with h2 | h2 <;>
        subst h1 <;> subst h2 <;>
        norm_num [balancer.qabs])

end CyberFly
